import Mathlib

/-!
Verification of the golf-caddie conversational core (`useGolfData.ts`,
`geminiService` part of the same module) against its specification.

The TypeScript source is shallowly embedded: React state updates become
pure state-transition functions on a `GolfData` value, the Gemini backend
call becomes an explicit `BackendOutcome` oracle (the network and the
JavaScript `JSON.parse` primitive are external), and JavaScript numbers
are modelled as exact integers / rationals.
-/

namespace Caddie

/-- Modelled from the spec: `types.ts` is not among the repository's files.
A conversation message's sender is either the caddie persona (tagged `jp`
in the data) or the player (§3 of the spec: "sender tagged as player or
caddie"). -/
inductive Sender where
  | jp
  | player
deriving Repr, DecidableEq

/-- Modelled from the spec: a turn of a Round's ordered conversation
transcript (sender tag plus message text). -/
structure ChatMessage where
  sender : Sender
  text : String
deriving Repr, DecidableEq

/-- Modelled from the spec: one hole's result inside a Round
(`holeNumber`, `score`, optional shot-level detail). -/
structure HolePerformance where
  holeNumber : Nat
  score : Int
  club : Option String := none
  outcome : Option String := none
deriving Repr, DecidableEq

/-- Modelled from the spec: a Round has a date (the upsert key),
conditions text, the ordered conversation transcript and the per-hole
performance breakdown. -/
structure Round where
  date : String
  conditions : String
  conversation : List ChatMessage
  holeByHole : List HolePerformance
deriving Repr, DecidableEq

/-- Modelled from the spec: a Hole has its number, par, yardage and an
optional (possibly missing) list of free-text notes. -/
structure Hole where
  holeNumber : Nat
  par : Nat
  yardage : Nat
  notes : Option (List String) := none
deriving Repr, DecidableEq

/-- Modelled from the spec: a Course owns its Holes and its Round
history. -/
structure Course where
  id : String
  name : String
  holes : List Hole
  roundHistory : List Round
deriving Repr, DecidableEq

/-- Modelled from the spec: the player profile is a list of tendency
strings. -/
structure PlayerProfile where
  tendencies : List String
deriving Repr, DecidableEq

/-- Modelled from the spec: the single persisted document,
`{courses, playerProfile}`. -/
structure GolfData where
  courses : List Course
  playerProfile : PlayerProfile
deriving Repr, DecidableEq

/-! ### Persistence model (`useLocalStorage`)

`useLocalStorage` reads one document from `window.localStorage` at mount:
`getItem` may return null (absent), the read or `JSON.parse` may throw
(unreadable), or a stored value is parsed. Its `setValue` computes the
value to store (applying an updater function to the current value when one
is passed), sets the in-memory state, and then attempts the storage write;
a throwing write is caught and only logged, after the in-memory state was
already set. -/

/-- What `window.localStorage.getItem` + `JSON.parse` can yield for the
stored document: no item, a throwing read/parse, or a parsed value. -/
inductive StoredItem (T : Type) where
  | absent
  | unreadable
  | stored (v : T)
deriving Repr, DecidableEq

/-- The initial state computed by `useLocalStorage`'s `useState` thunk:
`item ? JSON.parse(item) : initialValue`, with any thrown error caught and
`initialValue` returned. -/
def useLocalStorageInit {T : Type} (item : StoredItem T) (initialValue : T) : T :=
  match item with
  | .stored v => v
  | .absent => initialValue
  | .unreadable => initialValue

/-- A React `SetStateAction`: either a plain value or an updater applied to
the current state. -/
inductive SetStateAction (T : Type) where
  | value (v : T)
  | updater (f : T → T)

/-- `value instanceof Function ? value(storedValue) : value`. -/
def resolveAction {T : Type} (action : SetStateAction T) (storedValue : T) : T :=
  match action with
  | .value v => v
  | .updater f => f storedValue

/-- `useLocalStorage`'s `setValue`: returns the new in-memory state and what
reached storage (`none` when the storage write threw; the throw is caught
after `setStoredValue` already ran, so the in-memory state is the value
being set either way). -/
def setValueModel {T : Type} (writeSucceeds : Bool) (storedValue : T)
    (action : SetStateAction T) : T × Option T :=
  let valueToStore := resolveAction action storedValue
  (valueToStore, if writeSucceeds then some valueToStore else none)

/-- The initial document `GolfDataProvider` passes to `useLocalStorage`:
`{ courses: [], playerProfile: { tendencies: [] } }`. -/
def initialGolfData : GolfData :=
  { courses := [], playerProfile := { tendencies := [] } }

/-- The provider's in-memory state at mount, as a function of what the
persistence collaborator held. -/
def providerInitialData (item : StoredItem GolfData) : GolfData :=
  useLocalStorageInit item initialGolfData

/-! ### State transitions of `GolfDataProvider`

Each setter passes an updater to `setGolfData`; the updaters are pure
functions of the previous state, embedded directly. -/

/-- `addCourse`: append the course to `courses`. -/
def addCourse (course : Course) (prevData : GolfData) : GolfData :=
  { prevData with courses := prevData.courses ++ [course] }

/-- The round-history update inside `saveRound`: find the index of the
first round with the same date; if found (`roundIndex > -1`) overwrite that
slot, otherwise push at the end. -/
def upsertRound (history : List Round) (round : Round) : List Round :=
  let roundIndex := history.findIdx (fun r => r.date == round.date)
  if roundIndex < history.length then history.set roundIndex round
  else history ++ [round]

/-- The per-course body of `saveRound`'s `courses.map`. -/
def saveRoundCourse (courseId : String) (round : Round) (course : Course) : Course :=
  if course.id == courseId then
    { course with roundHistory := upsertRound course.roundHistory round }
  else course

/-- `saveRound`: upsert the round (keyed by date) into the history of every
course whose id matches. -/
def saveRound (courseId : String) (round : Round) (prevData : GolfData) : GolfData :=
  { prevData with courses := prevData.courses.map (saveRoundCourse courseId round) }

/-- The per-hole body of `addCourseNote`'s `holes.map`:
`[...(hole.notes || []), note]`. -/
def addNoteHole (holeNumber : Nat) (note : String) (hole : Hole) : Hole :=
  if hole.holeNumber == holeNumber then
    { hole with notes := some (hole.notes.getD [] ++ [note]) }
  else hole

/-- The per-course body of `addCourseNote`'s `courses.map`. -/
def addNoteCourse (courseId : String) (holeNumber : Nat) (note : String)
    (course : Course) : Course :=
  if course.id == courseId then
    { course with holes := course.holes.map (addNoteHole holeNumber note) }
  else course

/-- `addCourseNote`: append the note to the notes of the matching hole of
the matching course. -/
def addCourseNote (courseId : String) (holeNumber : Nat) (note : String)
    (prevData : GolfData) : GolfData :=
  { prevData with
    courses := prevData.courses.map (addNoteCourse courseId holeNumber note) }

/-- `addPlayerTendency`: append the tendency unless the profile already
includes that exact text ("Avoid duplicates"). The source's
`prevData.playerProfile || { tendencies: [] }` null-guard is the identity
under the declared `GolfData` type, which always carries a profile. -/
def addPlayerTendency (tendency : String) (prevData : GolfData) : GolfData :=
  let profile := prevData.playerProfile
  if profile.tendencies.contains tendency then prevData
  else { prevData with
         playerProfile := { profile with tendencies := profile.tendencies ++ [tendency] } }

/-- `getCourseById`: first course with the given id. -/
def getCourseById (golfData : GolfData) (courseId : String) : Option Course :=
  golfData.courses.find? (fun c => c.id == courseId)

/-! ### Historical Aggregator and Context Assembler (`buildSystemPrompt`) -/

/-- The `relevantHistory` local of `buildSystemPrompt`:
`course.roundHistory.map(r => r.holeByHole.find(h => h.holeNumber === n)).filter(h => !!h)`
— from each past round, the FIRST performance entry recorded for the
target hole (if any); `find` never yields a second entry of the same
round. -/
def relevantHistory (course : Course) (holeNumber : Nat) : List HolePerformance :=
  (course.roundHistory.map
    (fun r => r.holeByHole.find? (fun h => h.holeNumber == holeNumber))).reduceOption

/-- JavaScript `Number.prototype.toFixed(2)` over exact rationals: the
nearest hundredth (ties toward positive infinity, matching toFixed's
"pick the larger n") rendered with exactly two decimals. The
double-precision arithmetic of the JS runtime is abstracted to exact
rational arithmetic. For `x = p/q` in lowest terms with `q > 0`, the
rounded numerator of hundredths is `⌊x * 100 + 1/2⌋ = (200p + q).fdiv (2q)`
(floor division; see `toFixed2_round_eq_floor`). -/
def toFixed2 (x : ℚ) : String :=
  let n : Int := Int.fdiv (200 * x.num + (x.den : Int)) (2 * (x.den : Int))
  let sign := if n < 0 then "-" else ""
  let m := n.natAbs
  let frac := m % 100
  sign ++ toString (m / 100) ++ "." ++ (if frac < 10 then "0" else "") ++ toString frac

/-- The `historySummary` local of `buildSystemPrompt`: the fixed sentinel
when no round contributed an entry, otherwise the count of contributing
rounds and the mean of their scores (`reduce((acc, h) => acc + h.score, 0)`
divided by the length, rendered via `toFixed(2)`). The JS float quotient is
modelled as the exact rational `sum / length` (`Rat.divInt`, equal to `/`
on `ℚ` by `Rat.divInt_eq_div`). -/
def historySummary (course : Course) (holeNumber : Nat) : String :=
  let relevant := relevantHistory course holeNumber
  if relevant.length > 0 then
    let avgScore : ℚ :=
      Rat.divInt (relevant.foldl (fun acc h => acc + h.score) 0) (relevant.length : Int)
    "Player has played this hole " ++ toString relevant.length ++
      " times with an average score of " ++ toFixed2 avgScore ++ "."
  else "No previous history on this hole."

/-- The `holeNotes` local of `buildSystemPrompt`:
`currentHole.notes ? "\n    - Your organic notes on this hole: " + join : ""`.
JavaScript truthiness makes the condition false only when the `notes`
field is missing (undefined/null); a PRESENT empty array is truthy, so it
renders the header followed by an empty join. -/
def holeNotes (currentHole : Hole) : String :=
  match currentHole.notes with
  | some notes => "\n    - Your organic notes on this hole: " ++ String.intercalate ", " notes
  | none => ""

/-- The `playerTendencies` local of `buildSystemPrompt`: rendered only when
`tendencies.length > 0`. -/
def playerTendencies (playerProfile : PlayerProfile) : String :=
  if playerProfile.tendencies.length > 0 then
    "\n    - General Player Tendencies: " ++ String.intercalate ", " playerProfile.tendencies
  else ""

/-- `buildSystemPrompt`: the fixed persona/philosophy preamble, the Current
Context block (course name, hole metadata, history summary, optional notes
and tendencies sections, weather), the worked examples and the task list,
exactly as the source's template literal interpolates them. -/
def buildSystemPrompt (course : Course) (currentHole : Hole) (round : Round)
    (playerProfile : PlayerProfile) : String :=
  "You are JP, a professional AI golf caddie. Your personality is supportive, strategic, observant, and always conversational. Your entire existence is based on natural dialogue with a player.\n\n    **Your Conversational Philosophy (Non-Negotiable):**\n    - **NEVER Ask for Structured Data:** You are not a data entry bot. Never ask \"What club did you use?\" or \"What was the outcome?\". You must learn everything organically from the player's natural conversation.\n    - **Be a Conversational Partner:** Your goal is to have a dialogue that feels like walking 18 holes together. Respond to what the player says, ask open-ended questions, and offer thoughts like a real caddie.\n    - **Listen and Learn:** Actively listen to the player's stories, complaints, and observations to build your memory. A comment like \"I always end up in that right bunker\" is a crucial piece of data for you.\n    - **Reference Your Memory:** When relevant, explicitly mention that you are drawing from past rounds, historical data, or learned notes (e.g., 'I remember you said...', 'Based on your 5 previous rounds here...'). This builds the player's trust in your memory.\n\n    **Current Context:**\n    - Course: "
    ++ course.name
    ++ "\n    - Currently on: Hole #"
    ++ toString currentHole.holeNumber
    ++ " (Par "
    ++ toString currentHole.par
    ++ ", "
    ++ toString currentHole.yardage
    ++ " yds)\n    - Historical Performance on this hole: "
    ++ historySummary course currentHole.holeNumber
    ++ holeNotes currentHole
    ++ "\n    - Weather: "
    ++ round.conditions
    ++ playerTendencies playerProfile
    ++ "\n\n    **Example Interactions (Follow this style):**\n    - Player: \"Man, I'm standing over this 150-yard shot and there's water short.\"\n    - You: \"I remember you mentioned you've been pulling your 7-iron a bit when you're nervous. How's this shot feel?\"\n    - Player: \"Yeah, definitely feeling that. Maybe I'll take a smooth 6.\"\n    - You (Internal thought -> extract nothing): \"Sounds like a confident play. Let's commit to it.\"\n    - Player: \"This green is so fast today, way faster than usual.\"\n    - You (Internal thought -> extract 'courseNote'): \"Good to know, I'll add that to my notes for this hole. We'll have to adjust our strategy on the approaches then.\"\n\n    **Your Task:**\n    1.  Read the entire conversation history to understand the context.\n    2.  Provide a natural, concise, conversational response to the user's LATEST message based on your philosophy and the current context.\n    3.  Analyze the user's LATEST message for new, explicitly stated information to learn from. This could be a shot detail, a score, an observation about the course, or a personal tendency.\n    4.  Return a JSON object containing your `conversationalResponse`, any `extractedData`, and a suggested `audioCue`.\n    5.  Be CONSERVATIVE with data extraction. Only extract what is clearly stated. If they say \"Bad shot\", do not extract anything. If they say \"Hit my 7-iron into the sand\", extract club: '7-Iron' and outcome: 'Bunker'."

/-! ### Extraction Schema and Conversation Bridge (`getJpConversationalResponse`) -/

/-- A JSON value, as `JSON.parse` can produce one. JSON numbers are
abstracted to exact integers (every number this subsystem's schema
declares is an INTEGER field). -/
inductive Json where
  | null
  | bool (b : Bool)
  | num (n : Int)
  | str (s : String)
  | arr (elems : List Json)
  | obj (fields : List (String × Json))
deriving Repr

/-- Value of a key in a JSON object's field list (first occurrence). -/
def lookupField (fields : List (String × Json)) (key : String) : Option Json :=
  (fields.find? (fun f => f.1 == key)).map (fun f => f.2)

/-- A possibly-absent INTEGER field of the declared `responseSchema`
(absent, null or a number). -/
def isOptionalInt (v : Option Json) : Bool :=
  match v with
  | none => true
  | some .null => true
  | some (.num _) => true
  | _ => false

/-- A possibly-absent STRING field of the declared `responseSchema`
(absent, null or a string). -/
def isOptionalStr (v : Option Json) : Bool :=
  match v with
  | none => true
  | some .null => true
  | some (.str _) => true
  | _ => false

/-- Shape of the `extractedData` member of `responseSchema`: a nullable
OBJECT whose seven declared fields (`holeNumber`, `shotNumber`, `club`,
`outcome`, `scoreOnHole`, `courseNote`, `playerTendency`) are each
independently nullable and typed INTEGER or STRING. -/
def conformsExtractedData (v : Json) : Bool :=
  match v with
  | .null => true
  | .obj fields =>
    isOptionalInt (lookupField fields "holeNumber") &&
    isOptionalInt (lookupField fields "shotNumber") &&
    isOptionalStr (lookupField fields "club") &&
    isOptionalStr (lookupField fields "outcome") &&
    isOptionalInt (lookupField fields "scoreOnHole") &&
    isOptionalStr (lookupField fields "courseNote") &&
    isOptionalStr (lookupField fields "playerTendency")
  | _ => false

/-- The shape the source's `responseSchema` declares for a model reply: an
OBJECT whose `conversationalResponse` is a (non-nullable) STRING, whose
`extractedData`, when present, conforms to the nullable extracted-data
object, and whose `audioCue`, when present, is a nullable STRING. The
schema's prose descriptions constrain nothing structurally and are
elided. -/
def conformsToResponseSchema (v : Json) : Bool :=
  match v with
  | .obj fields =>
    (match lookupField fields "conversationalResponse" with
     | some (.str _) => true
     | _ => false) &&
    (match lookupField fields "extractedData" with
     | none => true
     | some d => conformsExtractedData d) &&
    (match lookupField fields "audioCue" with
     | none => true
     | some .null => true
     | some (.str _) => true
     | _ => false)
  | _ => false

/-- The fixed reply returned when no API key is configured (`if (!ai)`). -/
def offlineReply : Json :=
  .obj [("conversationalResponse",
          .str "JP is currently offline. The AI Caddie is not configured correctly. Please ensure the API key is set in the environment variables."),
        ("extractedData", .null),
        ("audioCue", .str "none")]

/-- The fixed reply returned from the `catch` block on any thrown failure. -/
def errorFallbackReply : Json :=
  .obj [("conversationalResponse",
          .str "There was an issue contacting JP. I'm having trouble thinking right now."),
        ("extractedData", .null),
        ("audioCue", .str "none")]

/-- One part of a request turn (`{ text: msg.text }`). -/
structure ContentPart where
  text : String
deriving Repr, DecidableEq

/-- One role-tagged request turn (`{ role, parts }`). -/
structure Content where
  role : String
  parts : List ContentPart
deriving Repr, DecidableEq

/-- The `contents` array of `getJpConversationalResponse`:
`round.conversation.map(msg => ({ role: msg.sender === 'jp' ? 'model' : 'user', parts: [{ text: msg.text }] }))`. -/
def contentsOf (round : Round) : List Content :=
  round.conversation.map (fun msg =>
    { role := if msg.sender == Sender.jp then "model" else "user",
      parts := [{ text := msg.text }] })

/-- What the awaited backend call can come to, as seen from the `try`
block: some throw before or at reading `response.text` (transport/backend
failure), or a reply text whose trimmed form `JSON.parse` either rejects
(it throws — `parsed = none`) or turns into a JSON value (`parsed = some j`).
The network and the JavaScript `JSON.parse` primitive are external, so
they enter the model as this oracle. -/
inductive BackendOutcome where
  | transportFailure
  | reply (parsed : Option Json)
deriving Repr

/-- `getJpConversationalResponse`, with an explicit trace of whether the
backend was invoked (second component). `apiConfigured` is whether the
module-level `ai` instance exists, i.e. whether `process.env.API_KEY` was
set at startup; when it is false the function returns the offline reply
before building any request. Inside the `try`, a transport failure or a
`JSON.parse` throw is caught and yields the fixed fallback; a successfully
parsed JSON value is returned as-is (no shape validation is applied to
it). -/
def getJpWithNetworkTrace (apiConfigured : Bool) (course : Course) (currentHole : Hole)
    (round : Round) (playerProfile : PlayerProfile) (outcome : BackendOutcome) :
    Json × Bool :=
  if !apiConfigured then (offlineReply, false)
  else
    let _systemInstruction := buildSystemPrompt course currentHole round playerProfile
    let _contents := contentsOf round
    match outcome with
    | .transportFailure => (errorFallbackReply, true)
    | .reply none => (errorFallbackReply, true)
    | .reply (some parsedJson) => (parsedJson, true)

/-- The value `getJpConversationalResponse` resolves with. -/
def getJpConversationalResponse (apiConfigured : Bool) (course : Course)
    (currentHole : Hole) (round : Round) (playerProfile : PlayerProfile)
    (outcome : BackendOutcome) : Json :=
  (getJpWithNetworkTrace apiConfigured course currentHole round playerProfile outcome).1

/-! ### Concrete fixtures used by witnesses and counterexamples -/

def witnessRound1 : Round :=
  { date := "2024-05-01", conditions := "Sunny", conversation := [], holeByHole := [] }

def witnessRound2 : Round :=
  { date := "2024-05-01", conditions := "Windy",
    conversation := [],
    holeByHole := [{ holeNumber := 1, score := 4 }] }

def witnessCourse : Course :=
  { id := "course-1", name := "Pinehurst", holes := [], roundHistory := [] }

def witnessData : GolfData :=
  { courses := [witnessCourse], playerProfile := { tendencies := [] } }

def emptyNotesHole : Hole :=
  { holeNumber := 7, par := 4, yardage := 380, notes := some [] }

def absentNotesHole : Hole :=
  { holeNumber := 7, par := 4, yardage := 380, notes := none }

def sampleConversationRound : Round :=
  { date := "2024-05-01", conditions := "Sunny",
    conversation := [{ sender := .player, text := "Hello JP" },
                     { sender := .jp, text := "Welcome back" }],
    holeByHole := [] }

/-- The collection rule the claim words (and §4.1 of the spec) describe:
EVERY HolePerformance entry across `roundHistory` whose `holeNumber`
matches — not merely the first entry of each round. Stated from the
spec's words, for comparison with `relevantHistory` (which the source
computes with a per-round `find`). -/
def allMatchingPerformances (course : Course) (holeNumber : Nat) : List HolePerformance :=
  course.roundHistory.flatMap
    (fun r => r.holeByHole.filter (fun h => h.holeNumber == holeNumber))

def dupRound : Round :=
  { date := "2024-05-01", conditions := "Sunny", conversation := [],
    holeByHole := [{ holeNumber := 7, score := 5 }, { holeNumber := 7, score := 3 }] }

def dupCourse : Course :=
  { id := "course-1", name := "Pinehurst",
    holes := [{ holeNumber := 7, par := 4, yardage := 380 }],
    roundHistory := [dupRound] }

def histRoundA : Round :=
  { date := "2024-04-01", conditions := "Calm", conversation := [],
    holeByHole := [{ holeNumber := 7, score := 5 }] }

def histRoundB : Round :=
  { date := "2024-04-08", conditions := "Breezy", conversation := [],
    holeByHole := [{ holeNumber := 7, score := 3 }] }

def histCourse : Course :=
  { id := "course-2", name := "Pinehurst",
    holes := [{ holeNumber := 7, par := 4, yardage := 380 }],
    roundHistory := [histRoundA, histRoundB] }

/-! ### Helper lemmas -/

/-- The integer computed inside `toFixed2` is exactly
`⌊x * 100 + 1/2⌋`: the hundredths count rounded half toward positive
infinity, as `toFixed(2)` rounds. -/
theorem toFixed2_round_eq_floor (x : ℚ) :
    Int.fdiv (200 * x.num + (x.den : Int)) (2 * (x.den : Int)) =
      Int.floor (x * 100 + 1 / 2) := by
  have hdpos : 0 < x.den := x.pos
  have hdenQ : ((x.den : ℚ)) ≠ 0 := by
    have hne : x.den ≠ 0 := by omega
    exact_mod_cast hne
  have hnum : (x.num : ℚ) = x * (x.den : ℚ) := by
    have h := Rat.num_div_den x
    rw [div_eq_iff hdenQ] at h
    exact h
  have hd2 : ((2 * x.den : ℕ) : ℚ) ≠ 0 := by
    have hne : 2 * x.den ≠ 0 := by omega
    exact_mod_cast hne
  have hx : x * 100 + 1 / 2 =
      ((200 * x.num + (x.den : ℤ) : ℤ) : ℚ) / ((2 * x.den : ℕ) : ℚ) := by
    rw [eq_div_iff hd2]
    push_cast [hnum]
    ring
  rw [hx, Rat.floor_intCast_div_natCast, Int.fdiv_eq_ediv _ (by positivity)]
  congr 1

theorem upsertRound_nil (r : Round) : upsertRound [] r = [r] := rfl

theorem upsertRound_cons_match {h : Round} {t : List Round} {r : Round}
    (hm : (h.date == r.date) = true) : upsertRound (h :: t) r = r :: t := by
  simp [upsertRound, List.findIdx_cons, hm]

theorem upsertRound_cons_nomatch {h : Round} {t : List Round} {r : Round}
    (hm : (h.date == r.date) = false) : upsertRound (h :: t) r = h :: upsertRound t r := by
  unfold upsertRound
  rw [List.findIdx_cons, hm]
  by_cases hlt : t.findIdx (fun x => x.date == r.date) < t.length
  · rw [if_pos (by simpa using Nat.succ_lt_succ hlt), if_pos hlt]
    simp [List.set_cons_succ]
  · rw [if_neg (by simpa using fun hc => hlt (Nat.lt_of_succ_lt_succ hc)), if_neg hlt]
    rfl

/-- After an upsert into a history holding at most one round of the upserted
date, the rounds of that date are exactly the upserted one. -/
theorem upsertRound_filter (history : List Round) (r : Round)
    (hle : (history.filter (fun x => x.date == r.date)).length ≤ 1) :
    (upsertRound history r).filter (fun x => x.date == r.date) = [r] := by
  induction history with
  | nil =>
    rw [upsertRound_nil]
    simp [List.filter]
  | cons h t ih =>
    cases hm : (h.date == r.date) with
    | true =>
      rw [upsertRound_cons_match hm]
      have hft : t.filter (fun x => x.date == r.date) = [] := by
        simp only [List.filter_cons, hm, if_true] at hle
        exact List.length_eq_zero.mp (by simpa using hle)
      simp [List.filter_cons, hft]
    | false =>
      rw [upsertRound_cons_nomatch hm]
      simp only [List.filter_cons, hm, if_false] at hle ⊢
      simp only [Bool.false_eq_true, if_false] at hle ⊢
      exact ih hle

/-! ### Claims -/

/-- C5: Round upsert is replace-not-append: for every state and every course
in it (at position `i`) whose id matches and whose round history holds at
most one round of the given date, saving a round with that date twice
(second content possibly different) leaves that course with exactly one
round of that date, and it is the most recently saved one. -/
theorem saveRound_upsert_replaces (data : GolfData) (courseId : String)
    (r1 r2 : Round) (i : Nat) (c₀ : Course)
    (hc : data.courses[i]? = some c₀) (hid : c₀.id = courseId)
    (hdate : r1.date = r2.date)
    (hle : (c₀.roundHistory.filter (fun x => x.date == r2.date)).length ≤ 1) :
    ((saveRound courseId r2 (saveRound courseId r1 data)).courses[i]?.map
      (fun c => c.roundHistory.filter (fun x => x.date == r2.date))) = some [r2] := by
  have hbeq : (c₀.id == courseId) = true := by simpa using hid
  have hfirst : saveRoundCourse courseId r1 c₀ =
      { c₀ with roundHistory := upsertRound c₀.roundHistory r1 } := by
    simp [saveRoundCourse, hbeq]
  have hsecond : saveRoundCourse courseId r2 (saveRoundCourse courseId r1 c₀) =
      { c₀ with roundHistory := upsertRound (upsertRound c₀.roundHistory r1) r2 } := by
    rw [hfirst]
    simp [saveRoundCourse, hbeq]
  have hf1 : (upsertRound c₀.roundHistory r1).filter (fun x => x.date == r2.date) = [r1] := by
    rw [← hdate]
    exact upsertRound_filter c₀.roundHistory r1 (by rw [hdate]; exact hle)
  have hf2 : (upsertRound (upsertRound c₀.roundHistory r1) r2).filter
      (fun x => x.date == r2.date) = [r2] :=
    upsertRound_filter _ r2 (by rw [hf1]; simp)
  simp [saveRound, List.map_map, List.getElem?_map, hc, Function.comp, hsecond, hf2]

/-- Witness for C5 at a concrete state: one course, empty history, two saves
of the same date. -/
theorem saveRound_upsert_replaces_witness :
    ((saveRound "course-1" witnessRound2
        (saveRound "course-1" witnessRound1 witnessData)).courses[0]?.map
      (fun c => c.roundHistory.filter (fun x => x.date == witnessRound2.date))) =
      some [witnessRound2] :=
  saveRound_upsert_replaces witnessData "course-1" witnessRound1 witnessRound2 0
    witnessCourse rfl rfl rfl (by decide)

/-- C6: Tendency append is set-like: adding the same exact tendency text
twice is the same as adding it once (the second append is rejected), and on
a duplicate-free profile the text ends up with exactly one occurrence. -/
theorem tendencyAppend_set_like (data : GolfData) (tendency : String) :
    addPlayerTendency tendency (addPlayerTendency tendency data) =
      addPlayerTendency tendency data ∧
    (data.playerProfile.tendencies.Nodup →
      (addPlayerTendency tendency
        (addPlayerTendency tendency data)).playerProfile.tendencies.count tendency = 1) := by
  cases hmem : data.playerProfile.tendencies.contains tendency with
  | true =>
    have hin : tendency ∈ data.playerProfile.tendencies := by simpa using hmem
    have h1 : addPlayerTendency tendency data = data := by
      simp [addPlayerTendency, hin]
    refine ⟨by rw [h1]; exact h1, fun hnd => ?_⟩
    rw [h1, h1]
    exact List.count_eq_one_of_mem hnd hin
  | false =>
    have hnotmem : tendency ∉ data.playerProfile.tendencies := by simpa using hmem
    have ht1 : addPlayerTendency tendency data =
        { data with playerProfile :=
            { tendencies := data.playerProfile.tendencies ++ [tendency] } } := by
      simp [addPlayerTendency, hnotmem]
    have h2 : addPlayerTendency tendency (addPlayerTendency tendency data) =
        addPlayerTendency tendency data := by
      rw [ht1]
      simp [addPlayerTendency]
    refine ⟨h2, fun _ => ?_⟩
    rw [h2, ht1]
    simp [List.count_append, List.count_eq_zero.mpr hnotmem]

/-- Witness for C6: a profile with two distinct tendencies, adding one of
them twice. -/
theorem tendencyAppend_set_like_witness :
    (addPlayerTendency "Pulls irons left"
      (addPlayerTendency "Pulls irons left"
        { courses := [],
          playerProfile := { tendencies := ["Confident driver"] } })).playerProfile.tendencies.count
      "Pulls irons left" = 1 :=
  (tendencyAppend_set_like
    { courses := [], playerProfile := { tendencies := ["Confident driver"] } }
    "Pulls irons left").2 (by decide)

theorem foldl_add_score (l : List HolePerformance) (a : Int) :
    l.foldl (fun acc h => acc + h.score) a = a + (l.map (fun h => h.score)).sum := by
  induction l generalizing a with
  | nil => simp
  | cons x t ih => simp [ih, add_assoc]

theorem find_toList_eq_filter {α : Type} (p : α → Bool) (l : List α)
    (h : (l.filter p).length ≤ 1) : (l.find? p).toList = l.filter p := by
  induction l with
  | nil => rfl
  | cons a t ih =>
    cases hp : p a with
    | true =>
      rw [List.find?_cons_of_pos _ hp, List.filter_cons_of_pos hp]
      have hft : t.filter p = [] := by
        rw [List.filter_cons_of_pos hp] at h
        exact List.length_eq_zero.mp (by simpa using h)
      simp [hft, Option.toList]
    | false =>
      rw [List.find?_cons_of_neg _ (by simp [hp]), List.filter_cons_of_neg (by simp [hp])]
      rw [List.filter_cons_of_neg (by simp [hp])] at h
      exact ih h

theorem reduceOption_map_toList {α β : Type} (f : α → Option β) (l : List α) :
    (l.map f).reduceOption = l.flatMap (fun a => (f a).toList) := by
  induction l with
  | nil => rfl
  | cons a t ih =>
    cases hf : f a with
    | none => simp [List.reduceOption_cons_of_none, hf, ih]
    | some b => simp [List.reduceOption_cons_of_some, hf, ih]

theorem flatMap_congr {α β : Type} {f g : α → List β} {l : List α}
    (h : ∀ a ∈ l, f a = g a) : l.flatMap f = l.flatMap g := by
  induction l with
  | nil => rfl
  | cons a t ih => simp [h a (by simp), ih (fun x hx => h x (by simp [hx]))]

theorem any_eq_find_isSome {α : Type} (p : α → Bool) (l : List α) :
    l.any p = (l.find? p).isSome := by
  induction l with
  | nil => rfl
  | cons a t ih =>
    cases hp : p a with
    | true =>
      rw [List.find?_cons_of_pos _ hp]
      simp [List.any_cons, hp]
    | false =>
      rw [List.find?_cons_of_neg _ (by simp [hp])]
      simp [List.any_cons, hp, ih]

theorem map_eq_self {α : Type} {f : α → α} {l : List α} (h : ∀ a ∈ l, f a = a) :
    l.map f = l := by
  induction l with
  | nil => rfl
  | cons a t ih => simp [h a (by simp), ih (fun x hx => h x (by simp [hx]))]

/-- C10: Unknown keys are silent no-ops: `saveRound` with an unmatched
courseId, and `addCourseNote` with an unmatched courseId or an unmatched
holeNumber inside the matched course, leave the whole state unchanged (and,
being total functions, raise nothing). -/
theorem unknown_keys_no_op (data : GolfData) (courseId : String) (holeNumber : Nat)
    (round : Round) (note : String) :
    ((∀ c ∈ data.courses, c.id ≠ courseId) →
      saveRound courseId round data = data ∧
      addCourseNote courseId holeNumber note data = data) ∧
    ((∀ c ∈ data.courses, c.id = courseId → ∀ h ∈ c.holes, h.holeNumber ≠ holeNumber) →
      addCourseNote courseId holeNumber note data = data) := by
  constructor
  · intro hno
    constructor
    · have hmap : data.courses.map (saveRoundCourse courseId round) = data.courses :=
        map_eq_self (fun c hc => by simp [saveRoundCourse, hno c hc])
      simp [saveRound, hmap]
    · have hmap : data.courses.map (addNoteCourse courseId holeNumber note) = data.courses :=
        map_eq_self (fun c hc => by simp [addNoteCourse, hno c hc])
      simp [addCourseNote, hmap]
  · intro hhole
    have hmap : data.courses.map (addNoteCourse courseId holeNumber note) = data.courses := by
      refine map_eq_self (fun c hc => ?_)
      by_cases hid : c.id = courseId
      · have hholes : c.holes.map (addNoteHole holeNumber note) = c.holes :=
          map_eq_self (fun h hmem => by simp [addNoteHole, hhole c hc hid h hmem])
        simp only [addNoteCourse]
        rw [if_pos (show (c.id == courseId) = true by simpa using hid), hholes]
      · simp [addNoteCourse, hid]
    simp [addCourseNote, hmap]

/-- Witness for C10: a state with one course; the keys used match nothing. -/
theorem unknown_keys_no_op_witness :
    saveRound "ghost" witnessRound1 witnessData = witnessData ∧
    addCourseNote "course-1" 3 "bunker right" witnessData = witnessData :=
  ⟨((unknown_keys_no_op witnessData "ghost" 3 witnessRound1 "bunker right").1
      (by decide)).1,
   (unknown_keys_no_op witnessData "course-1" 3 witnessRound1 "bunker right").2
      (by decide)⟩

/-- C9: a persistence read failure (absent or unreadable stored document)
never crashes the provider: it initializes with the documented empty state;
and a persistence write failure leaves the in-memory state as the value
being set (the `setItem` throw is caught after `setStoredValue` ran). -/
theorem persistence_resilience :
    (∀ item : StoredItem GolfData, item = .absent ∨ item = .unreadable →
      providerInitialData item = { courses := [], playerProfile := { tendencies := [] } }) ∧
    (∀ (T : Type) (writeSucceeds : Bool) (storedValue : T) (action : SetStateAction T),
      (setValueModel writeSucceeds storedValue action).1 = resolveAction action storedValue) := by
  refine ⟨fun item h => ?_, fun T w s a => rfl⟩
  rcases h with rfl | rfl <;> rfl

/-- Witness for C9: an unreadable stored document yields the empty state. -/
theorem persistence_resilience_witness :
    providerInitialData .unreadable =
      { courses := [], playerProfile := { tendencies := [] } } :=
  persistence_resilience.1 .unreadable (Or.inr rfl)

/-- C8: the Prompt Builder is deterministic: equal Course, Hole, Round and
PlayerProfile inputs produce byte-identical instruction text.
`buildSystemPrompt` reads nothing but its four arguments. -/
theorem prompt_determinism (c₁ c₂ : Course) (h₁ h₂ : Hole) (r₁ r₂ : Round)
    (p₁ p₂ : PlayerProfile) (hc : c₁ = c₂) (hh : h₁ = h₂) (hr : r₁ = r₂)
    (hp : p₁ = p₂) :
    buildSystemPrompt c₁ h₁ r₁ p₁ = buildSystemPrompt c₂ h₂ r₂ p₂ := by
  rw [hc, hh, hr, hp]

/-- Witness for C8 at concrete equal inputs. -/
theorem prompt_determinism_witness :
    buildSystemPrompt witnessCourse absentNotesHole witnessRound1 { tendencies := [] } =
      buildSystemPrompt witnessCourse absentNotesHole witnessRound1 { tendencies := [] } :=
  prompt_determinism witnessCourse witnessCourse absentNotesHole absentNotesHole
    witnessRound1 witnessRound1 { tendencies := [] } { tendencies := [] } rfl rfl rfl rfl

/-- C7: the Conversation Bridge maps the ordered transcript to a turn
sequence of the same length, in order, tagging caddie messages with the
model role and player messages with the user role, preserving each text;
being a plain `map`, nothing is truncated. -/
theorem transcript_role_mapping (round : Round) :
    (contentsOf round).length = round.conversation.length ∧
    (∀ i (hi : i < round.conversation.length),
      (contentsOf round).get ⟨i, by simpa [contentsOf] using hi⟩ =
        { role := match (round.conversation.get ⟨i, hi⟩).sender with
                  | Sender.jp => "model"
                  | Sender.player => "user",
          parts := [{ text := (round.conversation.get ⟨i, hi⟩).text }] }) := by
  have hrole : ∀ m : ChatMessage,
      (if m.sender == Sender.jp then "model" else "user") =
        (match m.sender with | Sender.jp => "model" | Sender.player => "user") := by
    rintro ⟨s, t⟩
    cases s <;> rfl
  refine ⟨by simp [contentsOf], fun i hi => ?_⟩
  simp only [contentsOf, List.get_eq_getElem, List.getElem_map]
  rw [hrole]

/-- Witness for C7: the two turns of a concrete transcript. -/
theorem transcript_role_mapping_witness :
    (contentsOf sampleConversationRound).get ⟨0, by decide⟩ =
        { role := "user", parts := [{ text := "Hello JP" }] } ∧
    (contentsOf sampleConversationRound).get ⟨1, by decide⟩ =
        { role := "model", parts := [{ text := "Welcome back" }] } :=
  ⟨(transcript_role_mapping sampleConversationRound).2 0 (by decide),
   (transcript_role_mapping sampleConversationRound).2 1 (by decide)⟩

/-- C4: with no API credential configured, the bridge returns the fixed
offline reply (offline message, null extracted data, audio cue none) and
the backend is never invoked (network-trace component `false`), for every
course, hole, round and profile. -/
theorem offline_no_network_call (course : Course) (currentHole : Hole) (round : Round)
    (profile : PlayerProfile) (outcome : BackendOutcome) :
    getJpWithNetworkTrace false course currentHole round profile outcome =
      (Json.obj
        [("conversationalResponse",
           Json.str "JP is currently offline. The AI Caddie is not configured correctly. Please ensure the API key is set in the environment variables."),
         ("extractedData", Json.null),
         ("audioCue", Json.str "none")],
       false) := rfl

theorem relevantHistory_mem (course : Course) (holeNumber : Nat) :
    ∀ p ∈ relevantHistory course holeNumber,
      p.holeNumber = holeNumber ∧ ∃ r ∈ course.roundHistory, p ∈ r.holeByHole := by
  intro p hp
  unfold relevantHistory at hp
  rw [List.reduceOption_mem_iff] at hp
  obtain ⟨r, hr, hfr⟩ := List.mem_map.mp hp
  exact ⟨by simpa using List.find?_some hfr, r, hr, List.mem_of_find?_eq_some hfr⟩

theorem relevantHistory_length_eq (course : Course) (holeNumber : Nat) :
    (relevantHistory course holeNumber).length =
      (course.roundHistory.filter
        (fun r => r.holeByHole.any (fun h => h.holeNumber == holeNumber))).length := by
  unfold relevantHistory
  induction course.roundHistory with
  | nil => rfl
  | cons r t ih =>
    rw [List.map_cons]
    cases hfind : r.holeByHole.find? (fun h => h.holeNumber == holeNumber) with
    | none =>
      rw [List.reduceOption_cons_of_none]
      rw [List.filter_cons_of_neg (by simp [any_eq_find_isSome, hfind])]
      exact ih
    | some x =>
      rw [List.reduceOption_cons_of_some]
      rw [List.filter_cons_of_pos (by simp [any_eq_find_isSome, hfind])]
      simpa using ih

/-- C3, counterexample to the claim as stated: a round recording two
performances for hole 7 (scores 5 and 3). The claim's collection rule
("exactly the HolePerformance entries in roundHistory whose holeNumber
matches") yields both entries (count 2, average 4.00); the code's
per-round `find` collects only the first, so the summary reports count 1
and average 5.00. -/
theorem historyAggregator_duplicate_cex :
    relevantHistory dupCourse 7 ≠ allMatchingPerformances dupCourse 7 ∧
    (allMatchingPerformances dupCourse 7).length = 2 ∧
    (relevantHistory dupCourse 7).length = 1 ∧
    historySummary dupCourse 7 =
      "Player has played this hole 1 times with an average score of 5.00." :=
  ⟨by decide, by decide, by decide, rfl⟩

/-- C3 (amended): the aggregator collects, from each round of
`roundHistory`, the FIRST performance entry recorded for the target hole:
every collected entry matches the hole and comes from some round; the
count equals the number of rounds containing at least one matching entry;
zero matches yields the fixed sentinel and never a numeric average;
`n > 0` matches yields the count and the arithmetic mean of the collected
scores rounded to two decimal places; and when every round holds at most
one matching entry the collection coincides with the claim's "all matching
entries" rule. -/
theorem historyAggregator_per_round (course : Course) (holeNumber : Nat) :
    (∀ p ∈ relevantHistory course holeNumber,
       p.holeNumber = holeNumber ∧ ∃ r ∈ course.roundHistory, p ∈ r.holeByHole) ∧
    ((relevantHistory course holeNumber).length =
      (course.roundHistory.filter
        (fun r => r.holeByHole.any (fun h => h.holeNumber == holeNumber))).length) ∧
    (relevantHistory course holeNumber = [] →
       historySummary course holeNumber = "No previous history on this hole.") ∧
    (relevantHistory course holeNumber ≠ [] →
       historySummary course holeNumber =
         "Player has played this hole " ++
           toString (relevantHistory course holeNumber).length ++
           " times with an average score of " ++
           toFixed2 (((((relevantHistory course holeNumber).map
                 (fun h => h.score)).sum : ℤ) : ℚ) /
               (((relevantHistory course holeNumber).length : ℕ) : ℚ)) ++ ".") ∧
    ((∀ r ∈ course.roundHistory,
        (r.holeByHole.filter (fun h => h.holeNumber == holeNumber)).length ≤ 1) →
      relevantHistory course holeNumber = allMatchingPerformances course holeNumber) := by
  refine ⟨relevantHistory_mem course holeNumber,
          relevantHistory_length_eq course holeNumber,
          fun hnil => by simp [historySummary, hnil],
          fun hne => ?_, fun hone => ?_⟩
  · have hpos : 0 < (relevantHistory course holeNumber).length :=
      List.length_pos.mpr hne
    simp only [historySummary, if_pos hpos]
    rw [foldl_add_score, zero_add, Rat.divInt_eq_div]
    norm_num
  · unfold relevantHistory allMatchingPerformances
    rw [reduceOption_map_toList]
    exact flatMap_congr (fun r hr => find_toList_eq_filter _ _ (hone r hr))

/-- Witness for C3 at the spec's own worked example: two rounds with
scores 5 and 3 on hole 7 give count 2, average 4.00; a hole with no
history yields the sentinel. -/
theorem historyAggregator_per_round_witness :
    historySummary histCourse 7 =
      "Player has played this hole 2 times with an average score of 4.00." ∧
    historySummary histCourse 9 = "No previous history on this hole." := by
  constructor
  · have h := (historyAggregator_per_round histCourse 7).2.2.2.1 (by decide)
    rw [h]
    have hrel : relevantHistory histCourse 7 =
        [{ holeNumber := 7, score := 5 }, { holeNumber := 7, score := 3 }] := by decide
    rw [hrel]
    norm_num
    rfl
  · exact (historyAggregator_per_round histCourse 9).2.2.1 (by decide)

/-- C2, counterexample to the claim as stated: a hole with a PRESENT but
EMPTY notes list. JavaScript truthiness (`currentHole.notes ?`) is false
only for a missing field, so the empty list renders the section header
followed by nothing instead of omitting the section, and the assembled
prompt differs from the prompt for the same hole without a notes field. -/
theorem contextNotes_empty_list_cex :
    holeNotes emptyNotesHole = "\n    - Your organic notes on this hole: " ∧
    holeNotes emptyNotesHole ≠ "" ∧
    buildSystemPrompt witnessCourse emptyNotesHole witnessRound1 { tendencies := [] } ≠
      buildSystemPrompt witnessCourse absentNotesHole witnessRound1 { tendencies := [] } := by
  refine ⟨rfl, by decide, fun heq => ?_⟩
  have hlen := congrArg String.length heq
  simp only [buildSystemPrompt, String.length_append, emptyNotesHole, absentNotesHole,
    holeNotes] at hlen
  have h40 : ("\n    - Your organic notes on this hole: ").length = 40 := by decide
  have h0 : ("" : String).length = 0 := rfl
  rw [h40, h0] at hlen
  omega

/-- C2 (amended): the notes section is omitted exactly when the hole has no
notes field at all — a present-but-empty list renders the section header
with empty content; independently, the tendencies section is omitted
exactly when the tendencies list is empty. -/
theorem contextSections_omission (hole : Hole) (profile : PlayerProfile) :
    (holeNotes hole = "" ↔ hole.notes = none) ∧
    (playerTendencies profile = "" ↔ profile.tendencies = []) := by
  have hpos1 : 0 < ("\n    - Your organic notes on this hole: ").length := by decide
  have hpos2 : 0 < ("\n    - General Player Tendencies: ").length := by decide
  constructor
  · cases hn : hole.notes with
    | none => simp [holeNotes, hn]
    | some ns =>
      simp only [holeNotes, hn]
      constructor
      · intro h
        have hlen := congrArg String.length h
        rw [String.length_append] at hlen
        have h0 : ("" : String).length = 0 := rfl
        rw [h0] at hlen
        omega
      · intro h
        cases h
  · cases hp : profile.tendencies with
    | nil => simp [playerTendencies, hp]
    | cons a t =>
      simp only [playerTendencies, hp]
      rw [if_pos (by simp)]
      constructor
      · intro h
        have hlen := congrArg String.length h
        rw [String.length_append] at hlen
        have h0 : ("" : String).length = 0 := rfl
        rw [h0] at hlen
        omega
      · intro h
        cases h

/-- Witness for C2: an absent notes field and an empty tendencies list are
omitted. -/
theorem contextSections_omission_witness :
    holeNotes absentNotesHole = "" ∧ playerTendencies { tendencies := [] } = "" :=
  ⟨(contextSections_omission absentNotesHole { tendencies := [] }).1.mpr rfl,
   (contextSections_omission absentNotesHole { tendencies := [] }).2.mpr rfl⟩

/-- C1, counterexample to the claim as stated: with a configured key, a
backend reply that parses to the JSON number 42 — syntactically valid JSON
violating the Extraction Schema's shape — is returned to the caller as-is,
not treated as malformed and replaced by the fixed fallback: the bridge
applies no shape validation to a successfully parsed reply. -/
theorem conversationBridge_passthrough_cex :
    conformsToResponseSchema
      (getJpConversationalResponse true dupCourse emptyNotesHole dupRound
        { tendencies := [] } (.reply (some (.num 42)))) = false ∧
    getJpConversationalResponse true dupCourse emptyNotesHole dupRound
      { tendencies := [] } (.reply (some (.num 42))) = Json.num 42 ∧
    Json.num 42 ≠ errorFallbackReply :=
  ⟨rfl, rfl, fun h => Json.noConfusion h⟩

/-- C1 (amended): the bridge never raises — every backend outcome resolves
to a returned reply value: with no configuration the fixed offline reply,
and on transport failure or a non-JSON reply the fixed fallback reply,
both of the schema's shape; but a successfully parsed JSON reply is
returned as-is, without shape validation, even when it violates the
schema's shape. -/
theorem conversationBridge_shape_policy (apiConfigured : Bool) (course : Course)
    (currentHole : Hole) (round : Round) (profile : PlayerProfile)
    (outcome : BackendOutcome) :
    (apiConfigured = false →
      getJpConversationalResponse apiConfigured course currentHole round profile outcome =
        offlineReply) ∧
    (apiConfigured = true →
      (outcome = .transportFailure ∨ outcome = .reply none) →
      getJpConversationalResponse apiConfigured course currentHole round profile outcome =
        errorFallbackReply) ∧
    (∀ j : Json, apiConfigured = true → outcome = .reply (some j) →
      getJpConversationalResponse apiConfigured course currentHole round profile outcome = j) ∧
    conformsToResponseSchema offlineReply = true ∧
    conformsToResponseSchema errorFallbackReply = true := by
  refine ⟨fun hc => ?_, fun hc ho => ?_, fun j hc ho => ?_, rfl, rfl⟩
  · subst hc
    rfl
  · subst hc
    rcases ho with rfl | rfl <;> rfl
  · subst hc
    subst ho
    rfl

/-- Witness for C1: the offline and transport-failure paths at concrete
inputs. -/
theorem conversationBridge_shape_policy_witness :
    getJpConversationalResponse false dupCourse emptyNotesHole dupRound
      { tendencies := [] } .transportFailure = offlineReply ∧
    getJpConversationalResponse true dupCourse emptyNotesHole dupRound
      { tendencies := [] } .transportFailure = errorFallbackReply :=
  ⟨(conversationBridge_shape_policy false dupCourse emptyNotesHole dupRound
      { tendencies := [] } .transportFailure).1 rfl,
   (conversationBridge_shape_policy true dupCourse emptyNotesHole dupRound
      { tendencies := [] } .transportFailure).2.1 rfl (Or.inl rfl)⟩

end Caddie
